import Mathlib

/-!
Verification development for the kobo-library repository.

The definitions below are shallow embeddings of the Python sources:

* `app/services/db_sync.py`   — staleness check and atomic database sync,
* `app/services/sync_state.py` — the sync state machine,
* `app/services/kobo.py`      — book deduplication/ordering queries and the
  chapter-progress reconstruction,
* `app/api/endpoints.py`      — the pagination arithmetic.

File-system effects are modelled by an explicit state (`FsState`) plus an
environment (`SyncEnv`) recording the outcome of each fallible OS / network
call made during one sync attempt.  Timestamps and progress fractions are
rationals; file bytes are lists of naturals.
-/

namespace KoboLib

/-! ### Freshness comparator (`DatabaseSyncService.is_local_cache_stale`)

`localM` is the local replica's mtime, with `0` encoding "no local file"
(`get_local_file_mtime`); `remoteM` is the remote upload timestamp in seconds,
with `0` encoding "remote metadata unavailable" (`get_b2_file_mtime`). -/

def is_local_cache_stale (localM remoteM : ℚ) : Bool :=
  if localM = 0 then true
  else if remoteM = 0 then false
  else decide (localM + 1 < remoteM)

/-! ### File-system and environment model for one sync attempt -/

/-- A file on disk: its byte content and its modification time. -/
structure ReplicaFile where
  bytes : List Nat
  mtime : ℚ
deriving DecidableEq

/-- The part of the file system a sync attempt touches: the replica at the
canonical local path (`none` = absent) and whether its directory exists. -/
structure FsState where
  replica : Option ReplicaFile
  dirExists : Bool
deriving DecidableEq

/-- `get_local_file_mtime`: `0` when the file is absent, else its mtime. -/
def get_local_file_mtime (fs : FsState) : ℚ :=
  match fs.replica with
  | none => 0
  | some f => f.mtime

/-- Outcomes of the fallible calls made during one sync attempt.
`remoteMtime` is the value returned by `get_b2_file_mtime` (which catches
its own exceptions and returns `0` on failure); `statResult` is the direct
`b2_service.get_file_info` call (`none` inside `ok` = no file info);
`downloadResult` carries the downloaded bytes on success; `now` is the
creation mtime a fresh temp file receives.  An `error` value is the message
of the exception the corresponding call raises. -/
structure SyncEnv where
  remoteMtime : ℚ
  statResult : Except String (Option ℚ)
  mkdirResult : Except String Unit
  mkstempResult : Except String Unit
  downloadResult : Except String (List Nat)
  utimeResult : Except String Unit
  moveResult : Except String Unit
  now : ℚ

/-- `DatabaseSyncService.sync_if_needed`.  Returns the file system after the
call, the temp file still present in the target directory after the call
(the `finally` block removes any leftover temp file, so this is `none` on
every path), and the boolean result.  The best-effort `os.remove` in the
cleanup is modelled as succeeding. -/
def sync_if_needed (fs : FsState) (env : SyncEnv) : FsState × Option ReplicaFile × Bool :=
  if is_local_cache_stale (get_local_file_mtime fs) env.remoteMtime then
    match env.mkdirResult with
    | Except.error _ => (fs, none, false)
    | Except.ok _ =>
      let fs1 : FsState := { fs with dirExists := true }
      match env.mkstempResult with
      | Except.error _ => (fs1, none, false)
      | Except.ok _ =>
        match env.downloadResult with
        | Except.error _ => (fs1, none, false)
        | Except.ok bs =>
          if bs.isEmpty then (fs1, none, false)
          else if 0 < env.remoteMtime then
            match env.utimeResult with
            | Except.error _ => (fs1, none, false)
            | Except.ok _ =>
              match env.moveResult with
              | Except.error _ => (fs1, none, false)
              | Except.ok _ =>
                ({ fs1 with replica := some { bytes := bs, mtime := env.remoteMtime } },
                  none, true)
          else
            match env.moveResult with
            | Except.error _ => (fs1, none, false)
            | Except.ok _ =>
              ({ fs1 with replica := some { bytes := bs, mtime := env.now } },
                none, true)
  else (fs, none, false)

/-! ### Sync state machine (`app/services/sync_state.py`) -/

inductive SyncStatus where
  | idle
  | checking
  | downloading
  | completed
  | upToDate
  | error
deriving DecidableEq

/-- The fields of the `SyncState` singleton. -/
structure SyncState where
  status : SyncStatus
  message : String
  progress : Option ℚ
  error : Option String
  lastSyncTime : Option ℚ
  fileSizeMb : Option ℚ
deriving DecidableEq

/-- `SyncState.__init__` / `set_idle`. -/
def initial_sync_state : SyncState :=
  { status := .idle
    message := ""
    progress := none
    error := none
    lastSyncTime := none
    fileSizeMb := none }

/-- `SyncState.set_checking`. -/
def set_checking (s : SyncState) : SyncState :=
  { s with
    status := .checking
    message := "Checking for updates..."
    error := none
    progress := none }

/-- `SyncState.set_downloading` (the log line's size formatting is elided). -/
def set_downloading (s : SyncState) (sz : Option ℚ) : SyncState :=
  { s with
    status := .downloading
    message := "Downloading database..."
    error := none
    progress := some 0
    fileSizeMb := sz }

/-- `SyncState.set_completed`; the message's numeric `.2f` interpolation is
elided (presentation only), `now` models `datetime.now`. -/
def set_completed (s : SyncState) (sz : Option ℚ) (now : ℚ) : SyncState :=
  { s with
    status := .completed
    message := "Sync completed"
    error := none
    progress := some 100
    lastSyncTime := some now
    fileSizeMb := sz }

/-- `SyncState.set_up_to_date`. -/
def set_up_to_date (s : SyncState) : SyncState :=
  { s with
    status := .upToDate
    message := "Database is up to date"
    error := none
    progress := none }

/-- `SyncState.set_error`. -/
def set_error (s : SyncState) (msg : String) : SyncState :=
  { s with
    status := .error
    message := "Sync failed"
    error := some msg
    progress := none }

/-- `SyncState.is_busy`. -/
def is_busy (s : SyncState) : Bool :=
  s.status = SyncStatus.checking || s.status = SyncStatus.downloading

/-- `DatabaseSyncService.sync_with_state_tracking`.  Result: file system,
tracker state, leftover temp file, boolean return value.  Download-phase
exceptions (inner `try`) are recorded as `"Download failed: " ++ msg`;
exceptions before the download phase are caught by the outer handler and
recorded verbatim, matching the source. -/
def sync_with_state_tracking (fs : FsState) (st : SyncState) (env : SyncEnv) :
    FsState × SyncState × Option ReplicaFile × Bool :=
  if is_busy st then (fs, st, none, false)
  else
    let st1 := set_checking st
    if is_local_cache_stale (get_local_file_mtime fs) env.remoteMtime then
      match env.statResult with
      | Except.error e => (fs, set_error st1 e, none, false)
      | Except.ok info =>
        let sz : Option ℚ := info.map (fun s => s / (1024 * 1024))
        let st2 := set_downloading st1 sz
        match env.mkdirResult with
        | Except.error e => (fs, set_error st2 e, none, false)
        | Except.ok _ =>
          let fs1 : FsState := { fs with dirExists := true }
          match env.mkstempResult with
          | Except.error e => (fs1, set_error st2 e, none, false)
          | Except.ok _ =>
            match env.downloadResult with
            | Except.error e =>
              (fs1, set_error st2 ("Download failed: " ++ e), none, false)
            | Except.ok bs =>
              if bs.isEmpty then
                (fs1, set_error st2 "Download failed: Downloaded file is empty",
                  none, false)
              else if 0 < env.remoteMtime then
                match env.utimeResult with
                | Except.error e =>
                  (fs1, set_error st2 ("Download failed: " ++ e), none, false)
                | Except.ok _ =>
                  match env.moveResult with
                  | Except.error e =>
                    (fs1, set_error st2 ("Download failed: " ++ e), none, false)
                  | Except.ok _ =>
                    ({ fs1 with replica := some { bytes := bs, mtime := env.remoteMtime } },
                      set_completed st2 (some ((bs.length : ℚ) / (1024 * 1024))) env.now,
                      none, true)
              else
                match env.moveResult with
                | Except.error e =>
                  (fs1, set_error st2 ("Download failed: " ++ e), none, false)
                | Except.ok _ =>
                  ({ fs1 with replica := some { bytes := bs, mtime := env.now } },
                    set_completed st2 (some ((bs.length : ℚ) / (1024 * 1024))) env.now,
                    none, true)
    else (fs, set_up_to_date st1, none, false)

/-! ### Interleaving model for concurrent sync starts

Each `SyncState` method holds `_state_lock` for its whole body, so `is_busy`,
`set_checking` and `set_downloading` are the atomic actions; nothing makes the
busy check and the `set_checking` transition of `sync_with_state_tracking`
atomic *together*.  A thread of `sync_with_state_tracking` is modelled by its
position between those atomic actions. -/

inductive Phase where
  | start
  | passed
  | declined
  | inChecking
  | inDownloading
deriving DecidableEq

inductive Tid where
  | ta
  | tb
deriving DecidableEq

/-- Two threads running `sync_with_state_tracking` against the shared
tracker. -/
structure TwoSync where
  st : SyncState
  pa : Phase
  pb : Phase
deriving DecidableEq

def phaseOf (s : TwoSync) (t : Tid) : Phase :=
  match t with
  | .ta => s.pa
  | .tb => s.pb

def withPhase (s : TwoSync) (t : Tid) (p : Phase) : TwoSync :=
  match t with
  | .ta => { s with pa := p }
  | .tb => { s with pb := p }

/-- One atomic action of thread `t`: the `is_busy` read, the `set_checking`
transition, or (with the staleness check deciding to download) the
`set_downloading` transition that starts the download logic. -/
def stepThread (s : TwoSync) (t : Tid) : TwoSync :=
  match phaseOf s t with
  | .start =>
      if is_busy s.st then withPhase s t .declined else withPhase s t .passed
  | .passed => { withPhase s t .inChecking with st := set_checking s.st }
  | .inChecking => { withPhase s t .inDownloading with st := set_downloading s.st none }
  | _ => s

/-- Run a schedule (list of thread ids, each entry = one atomic action). -/
def runSched (s : TwoSync) (sched : List Tid) : TwoSync :=
  sched.foldl stepThread s

def initTwo : TwoSync := { st := initial_sync_state, pa := .start, pb := .start }

/-- The interleaving in which both threads pass the busy check before either
one transitions to Checking. -/
def raceSched : List Tid := [Tid.ta, Tid.tb, Tid.ta, Tid.tb, Tid.ta, Tid.tb]

/-! ### Library query engine (`app/services/kobo.py`)

A row of the `content` table, restricted to the columns the queries branch
on (`ImageUrl`/`ISBN` are only projected through).  `PercentRead` models the
`___PercentRead` column; `DateCreated` is modelled as a rational so that the
SQL comparisons become numeric order. -/
structure BookRow where
  ContentID : Nat
  Title : String
  Attribution : Option String
  DateCreated : ℚ
  PercentRead : ℚ
  MimeType : String
  ContentType : String
  BookID : Option String
deriving DecidableEq

/-- `pat` is a leading segment of the second list. -/
def leadMatch : List Char → List Char → Bool
  | [], _ => true
  | _ :: _, [] => false
  | a :: as, b :: bs => a == b && leadMatch as bs

/-- `pat` occurs as a contiguous segment of the list (SQL `LIKE '%pat%'`). -/
def subSearch (pat : List Char) : List Char → Bool
  | [] => pat.isEmpty
  | c :: t => leadMatch pat (c :: t) || subSearch pat t

/-- `hay` contains `pat` as a substring. -/
def strContains (hay pat : String) : Bool := subSearch pat.data hay.data

/-- ASCII lowercasing of one character (SQLite `LOWER` and `LIKE` are
ASCII-only case-insensitive, which this matches exactly). -/
def lowerChar (c : Char) : Char :=
  if 65 ≤ c.toNat ∧ c.toNat ≤ 90 then Char.ofNat (c.toNat + 32) else c

/-- ASCII lowercasing of a string. -/
def str_lower (s : String) : String := String.mk (s.data.map lowerChar)

/-- Lexicographic order on character lists by code point, i.e. the order
SQLite's default BINARY collation gives `ORDER BY ... ASC` on UTF-8 text. -/
def lexLe : List Char → List Char → Bool
  | [], _ => true
  | _ :: _, [] => false
  | a :: as, b :: bs =>
    if a.toNat < b.toNat then true
    else if b.toNat < a.toNat then false
    else lexLe as bs

/-- The outer `WHERE` filter shared by `get_books` and `get_total_books`:
`ContentType = '6' AND (BookID IS NULL OR BookID = '')`. -/
def is_candidate (r : BookRow) : Bool :=
  r.ContentType == "6" && (r.BookID == none || r.BookID == some "")

def candidate_rows (table : List BookRow) : List BookRow :=
  table.filter is_candidate

/-- SQL grouping of candidate rows: equal `Title` and equal `Attribution`
(`c2.Attribution = c1.Attribution OR` both `NULL`). -/
def same_group (a b : BookRow) : Bool :=
  a.Title == b.Title &&
    match a.Attribution, b.Attribution with
    | some x, some y => x == y
    | none, none => true
    | _, _ => false

def group_rows (cs : List BookRow) (r : BookRow) : List BookRow :=
  cs.filter (fun x => same_group r x)

/-- `a` sorts strictly before `b` under the dedup subquery's
`ORDER BY ___PercentRead DESC, DateCreated DESC`. -/
def beats (a b : BookRow) : Bool :=
  decide (b.PercentRead < a.PercentRead ∨
    (a.PercentRead = b.PercentRead ∧ b.DateCreated < a.DateCreated))

/-- The row the subquery's `ORDER BY ... LIMIT 1` selects: a maximum of
`beats`; on full ties the earliest row in table order (SQLite leaves the
tie choice unspecified, so any fixed choice is a faithful model). -/
def pick_winner : List BookRow → Option BookRow
  | [] => none
  | x :: xs =>
    match pick_winner xs with
    | none => some x
    | some w => if beats w x then some w else some x

/-- The rows surviving `c1.ContentID = (SELECT ... LIMIT 1)`: each candidate
row that is its own group's winner.  The subsequent
`GROUP BY c1.Title, c1.Attribution` then groups singletons, so the `MAX`
aggregates return the winner's own column values. -/
def dedup_winners (table : List BookRow) : List BookRow :=
  let cs := candidate_rows table
  cs.filter (fun r => pick_winner (group_rows cs r) == some r)

/-- The `CASE WHEN MimeType LIKE '%...%'` classification; SQLite `LIKE` is
ASCII-case-insensitive, hence the lowering. -/
def content_category (m : String) : String :=
  let ml := str_lower m
  if strContains ml "instapaper" then "article"
  else if strContains ml "pocket" then "article"
  else if strContains ml "epub" then "book"
  else if strContains ml "pdf" then "pdf"
  else if strContains ml "nebo" then "notebook"
  else "other"

/-- Python's `if search:` / `if content_type:`—`None` and `""` both disable
the filter. -/
def active_filter : Option String → Option String
  | none => none
  | some s => if s.isEmpty then none else some s

/-- `LOWER(Title) LIKE '%search.lower()%' OR LOWER(Attribution) LIKE ...`
(a `NULL` author makes the second disjunct `NULL`, i.e. no match). -/
def matches_search (s : String) (r : BookRow) : Bool :=
  let pat := str_lower s
  strContains (str_lower r.Title) pat ||
    match r.Attribution with
    | some a => strContains (str_lower a) pat
    | none => false

/-- Deduplicated rows after the optional content-type and search filters
(both are outer-`WHERE` conjuncts on `c1`, so they apply to the winner
rows, not inside the winner subquery). -/
def filtered_rows (search ctype : Option String) (table : List BookRow) : List BookRow :=
  let ws := dedup_winners table
  let ws1 := match active_filter ctype with
    | some ct => ws.filter (fun r => content_category r.MimeType == ct)
    | none => ws
  match active_filter search with
  | some s => ws1.filter (matches_search s)
  | none => ws1

/-- `CASE WHEN MAX(___PercentRead) > 0 THEN 0 ELSE 1 END`. -/
def bucket (r : BookRow) : Nat := if 0 < r.PercentRead then 0 else 1

def lower_title (r : BookRow) : List Char := (str_lower r.Title).data

/-- The listing's `ORDER BY` as a total preorder: bucket ascending, then
`___PercentRead` descending, then `LOWER(Title)` ascending. -/
def listing_le (a b : BookRow) : Prop :=
  bucket a < bucket b ∨
    (bucket a = bucket b ∧
      (b.PercentRead < a.PercentRead ∨
        (a.PercentRead = b.PercentRead ∧ lexLe (lower_title a) (lower_title b) = true)))

instance : DecidableRel listing_le := fun a b => by
  unfold listing_le; infer_instance

/-- `LIMIT ? OFFSET ?` is emitted only when both are provided; `LIMIT ?`
alone when only `limit` is; nothing otherwise. -/
def apply_limit_offset (limit offs : Option Nat) (xs : List BookRow) : List BookRow :=
  match limit, offs with
  | some l, some o => (xs.drop o).take l
  | some l, none => xs.take l
  | none, _ => xs

/-- `KoboService.get_books`. -/
def get_books (limit offs : Option Nat) (search ctype : Option String)
    (table : List BookRow) : List BookRow :=
  apply_limit_offset limit offs
    (List.insertionSort listing_le (filtered_rows search ctype table))

/-- The expression inside `COUNT(DISTINCT Title || COALESCE(Attribution, ''))`. -/
def concat_key (r : BookRow) : String := r.Title ++ (r.Attribution.getD "")

/-- `KoboService.get_total_books`: distinct concatenation keys over the same
deduplicated, filtered rows. -/
def get_total_books (search ctype : Option String) (table : List BookRow) : Nat :=
  (((filtered_rows search ctype table).map concat_key).dedup).length

/-- `endpoints.get_books`:
`(total_books + page_size - 1) // page_size if total_books > 0 else 1`. -/
def total_pages (total page_size : Nat) : Nat :=
  if 0 < total then (total + page_size - 1) / page_size else 1

/-! ### Progress reconstructor (`KoboService._calculate_chapter_progress`) -/

/-- A `content` row as seen by the range query. -/
structure ContentRow where
  ContentID : String
  BookID : Option String
  VolumeIndex : Option Int
  Depth : Int
deriving DecidableEq

/-- A bookmark row, restricted to the fields the reconstruction reads. -/
structure Bookmark where
  ContentID : Option String
  ChapterProgress : Option ℚ
  VolumeIndex : Option Int
deriving DecidableEq

/-- Maximal leading run of digits. -/
def digitsLead : List Char → List Char
  | [] => []
  | c :: cs => if c.isDigit then c :: digitsLead cs else []

/-- `re.search(r'part\d+', s)`: first occurrence of `"part"` followed by at
least one digit, taking the maximal digit run. -/
def findPart : List Char → Option (List Char)
  | 'p' :: 'a' :: 'r' :: 't' :: rest =>
    let ds := digitsLead rest
    if ds.isEmpty then findPart ('a' :: 'r' :: 't' :: rest)
    else some ('p' :: 'a' :: 'r' :: 't' :: ds)
  | _ :: cs => findPart cs
  | [] => none

def extract_part (s : String) : Option String :=
  (findPart s.data).map (fun l => String.mk l)

/-- The rows the range query aggregates over:
`BookID = ? AND ContentID LIKE '%part%' AND Depth = 0`, keeping the non-null
`VolumeIndex` values (SQL `MIN`/`MAX` skip `NULL`s). -/
def sections_of_part (table : List ContentRow) (book : String) (p : String) : List Int :=
  (table.filter (fun c =>
      c.BookID == some book && strContains c.ContentID p && c.Depth == 0)).filterMap
    (fun c => c.VolumeIndex)

/-- `SELECT MIN(VolumeIndex), MAX(VolumeIndex) ...`; `none` when the query
returns no non-null index (then the part gets no recorded range). -/
def chapter_range (table : List ContentRow) (book : String) (p : String) :
    Option (Int × Int) :=
  match sections_of_part table book p with
  | [] => none
  | v :: vs => some (vs.foldl min v, vs.foldl max v)

/-- The `chapter_ranges` dict built by the first loop, in insertion order. -/
def build_ranges (table : List ContentRow) (book : String) (bms : List Bookmark) :
    List (String × (Int × Int)) :=
  bms.foldl (fun acc bm =>
    match bm.ContentID with
    | none => acc
    | some cid =>
      match extract_part cid with
      | none => acc
      | some p =>
        if (acc.lookup p).isSome then acc
        else
          match chapter_range table book p with
          | none => acc
          | some r => acc ++ [(p, r)]) []

/-- `max(0.0, min(1.0, q))`. -/
def clamp01 (q : ℚ) : ℚ := max 0 (min 1 q)

/-- The second loop's per-bookmark computation of `TrueChapterProgress`,
reading the recorded ranges. -/
def true_progress (ranges : List (String × (Int × Int))) (bm : Bookmark) : Option ℚ :=
  match bm.ContentID, bm.ChapterProgress, bm.VolumeIndex with
  | some cid, some sp, some vi =>
    if cid.isEmpty then none
    else
      match extract_part cid with
      | none => none
      | some p =>
        match ranges.lookup p with
        | none => none
        | some (mn, mx) =>
          let total : Int := mx - mn + 1
          if total ≤ 0 then some sp
          else some (clamp01 ((((vi - mn : Int) : ℚ) + sp) / (total : ℚ)))
  | _, _, _ => none

/-- `KoboService._calculate_chapter_progress` (exception-free model; the
blanket `except` that nulls every value cannot fire here). -/
def calculate_chapter_progress (table : List ContentRow) (book : String)
    (bms : List Bookmark) : List (Bookmark × Option ℚ) :=
  let ranges := build_ranges table book bms
  bms.map (fun bm => (bm, true_progress ranges bm))

/-! ### Concrete fixtures used by the witness theorems -/

def wRep : ReplicaFile := { bytes := [1, 2, 3], mtime := 10 }

def wFs : FsState := { replica := some wRep, dirExists := true }

/-- A stale situation (remote at 100, local at 10) whose download raises. -/
def wEnvFail : SyncEnv :=
  { remoteMtime := 100
    statResult := Except.ok (some 42)
    mkdirResult := Except.ok ()
    mkstempResult := Except.ok ()
    downloadResult := Except.error "boom"
    utimeResult := Except.ok ()
    moveResult := Except.ok ()
    now := 50 }

/-- The same situation with a successful two-byte download. -/
def wEnvOk : SyncEnv :=
  { wEnvFail with downloadResult := Except.ok [9, 9] }

def wBusy : SyncState :=
  { initial_sync_state with status := .checking }

/-- Spec test 5's rows: A(X, Y, 30%), B(X, Y, 70%), C(Z, no author, 0%). -/
def rowA : BookRow :=
  { ContentID := 1
    Title := "X"
    Attribution := some "Y"
    DateCreated := 5
    PercentRead := 30
    MimeType := "application/epub"
    ContentType := "6"
    BookID := none }

def rowB : BookRow :=
  { rowA with
    ContentID := 2
    DateCreated := 6
    PercentRead := 70 }

def rowC : BookRow :=
  { rowA with
    ContentID := 3
    Title := "Z"
    Attribution := none
    DateCreated := 7
    PercentRead := 0 }

def wBooks : List BookRow := [rowA, rowB, rowC]

/-- Two distinct (Title, Author) groups whose `Title || COALESCE(Author, '')`
keys collide: ("AB", "C") and ("A", "BC") both give "ABC". -/
def rowAB : BookRow :=
  { rowA with
    ContentID := 1
    Title := "AB"
    Attribution := some "C"
    PercentRead := 0 }

def rowBC : BookRow :=
  { rowA with
    ContentID := 2
    Title := "A"
    Attribution := some "BC"
    PercentRead := 0 }

def wCollide : List BookRow := [rowAB, rowBC]

def wRanges : List (String × (Int × Int)) := [("part0007", (10, 12))]

def wBm : Bookmark :=
  { ContentID := some "part0007", ChapterProgress := some (1/2), VolumeIndex := some 11 }

/-! ## Theorems -/

theorem lexLe_cons_iff {a b : Char} {as bs : List Char} :
    lexLe (a :: as) (b :: bs) = true ↔
      (a.toNat < b.toNat ∨ (a.toNat = b.toNat ∧ lexLe as bs = true)) := by
  simp only [lexLe]
  by_cases h1 : a.toNat < b.toNat
  · simp [h1]
  · by_cases h2 : b.toNat < a.toNat
    · simp [h1, h2]
      omega
    · have he : a.toNat = b.toNat := by omega
      simp [h1, h2, he]

theorem lexLe_total : ∀ x y : List Char, lexLe x y = true ∨ lexLe y x = true
  | [], _ => Or.inl rfl
  | _ :: _, [] => Or.inr rfl
  | a :: as, b :: bs => by
    rcases Nat.lt_trichotomy a.toNat b.toNat with h | h | h
    · exact Or.inl (lexLe_cons_iff.mpr (Or.inl h))
    · rcases lexLe_total as bs with ht | ht
      · exact Or.inl (lexLe_cons_iff.mpr (Or.inr ⟨h, ht⟩))
      · exact Or.inr (lexLe_cons_iff.mpr (Or.inr ⟨h.symm, ht⟩))
    · exact Or.inr (lexLe_cons_iff.mpr (Or.inl h))

theorem lexLe_trans : ∀ x y z : List Char,
    lexLe x y = true → lexLe y z = true → lexLe x z = true
  | [], _, _, _, _ => rfl
  | _ :: _, [], _, h, _ => by cases h
  | _ :: _, _ :: _, [], _, h2 => by cases h2
  | a :: as, b :: bs, c :: cs, h1, h2 => by
    rcases lexLe_cons_iff.mp h1 with hab | ⟨hab, hr1⟩ <;>
      rcases lexLe_cons_iff.mp h2 with hbc | ⟨hbc, hr2⟩
    · exact lexLe_cons_iff.mpr (Or.inl (hab.trans hbc))
    · exact lexLe_cons_iff.mpr (Or.inl (by omega))
    · exact lexLe_cons_iff.mpr (Or.inl (by omega))
    · exact lexLe_cons_iff.mpr (Or.inr ⟨hab.trans hbc, lexLe_trans as bs cs hr1 hr2⟩)

instance : IsTotal BookRow listing_le := by
  constructor
  intro a b
  unfold listing_le
  rcases Nat.lt_trichotomy (bucket a) (bucket b) with hb | hb | hb
  · exact Or.inl (Or.inl hb)
  · rcases lt_trichotomy a.PercentRead b.PercentRead with hp | hp | hp
    · exact Or.inr (Or.inr ⟨hb.symm, Or.inl hp⟩)
    · rcases lexLe_total (lower_title a) (lower_title b) with ht | ht
      · exact Or.inl (Or.inr ⟨hb, Or.inr ⟨hp, ht⟩⟩)
      · exact Or.inr (Or.inr ⟨hb.symm, Or.inr ⟨hp.symm, ht⟩⟩)
    · exact Or.inl (Or.inr ⟨hb, Or.inl hp⟩)
  · exact Or.inr (Or.inl hb)

instance : IsTrans BookRow listing_le := by
  constructor
  intro a b c hab hbc
  unfold listing_le at hab hbc ⊢
  rcases hab with h1 | ⟨e1, h1⟩
  · rcases hbc with h2 | ⟨e2, _⟩
    · exact Or.inl (h1.trans h2)
    · exact Or.inl (by omega)
  · rcases hbc with h2 | ⟨e2, h2⟩
    · exact Or.inl (by omega)
    · refine Or.inr ⟨e1.trans e2, ?_⟩
      rcases h1 with h1 | ⟨p1, t1⟩
      · rcases h2 with h2 | ⟨p2, _⟩
        · exact Or.inl (h2.trans h1)
        · exact Or.inl (p2 ▸ h1)
      · rcases h2 with h2 | ⟨p2, t2⟩
        · exact Or.inl (by rw [p1]; exact h2)
        · exact Or.inr ⟨p1.trans p2, lexLe_trans _ _ _ t1 t2⟩

/-- C2: `is_local_cache_stale` returns true when the local timestamp is 0;
otherwise false when the remote timestamp is 0; otherwise true iff the
remote timestamp exceeds the local one by more than one second. -/
theorem claim_C2 (localM remoteM : ℚ) :
    (localM = 0 → is_local_cache_stale localM remoteM = true)
    ∧ (localM ≠ 0 → remoteM = 0 → is_local_cache_stale localM remoteM = false)
    ∧ (localM ≠ 0 → remoteM ≠ 0 →
        (is_local_cache_stale localM remoteM = true ↔ localM + 1 < remoteM)) := by
  refine ⟨fun h => by simp [is_local_cache_stale, h],
    fun h1 h2 => by simp [is_local_cache_stale, h1, h2],
    fun h1 h2 => by simp [is_local_cache_stale, h1, h2]⟩

theorem claim_C2_witness :
    is_local_cache_stale 0 7 = true
    ∧ is_local_cache_stale 3 0 = false
    ∧ is_local_cache_stale 3 5 = true :=
  ⟨(claim_C2 0 7).1 rfl,
    (claim_C2 3 0).2.1 (by norm_num) rfl,
    ((claim_C2 3 5).2.2 (by norm_num) (by norm_num)).mpr (by norm_num)⟩

/-- C10: without a limit, the offset is silently dropped — `get_books` with
`limit = none` returns the same list whatever the offset. -/
theorem claim_C10 (k : Nat) (search ctype : Option String) (table : List BookRow) :
    get_books none (some k) search ctype table =
      get_books none none search ctype table := rfl

/-- C9: the busy check and the Checking transition are separate lock
acquisitions, so the interleaving `raceSched` drives *both* concurrent
invocations into the download stage, with the shared tracker busy —
the single-flight claim fails on this schedule. -/
theorem claim_C9_race :
    (runSched initTwo raceSched).pa = Phase.inDownloading
    ∧ (runSched initTwo raceSched).pb = Phase.inDownloading
    ∧ is_busy (runSched initTwo raceSched).st = true := by decide

/-- C8: `is_busy` is true exactly for the Checking and Downloading statuses,
and a `sync_with_state_tracking` call that finds the tracker busy returns
false, changes no state, creates no temp file, and downloads nothing. -/
theorem claim_C8 :
    (∀ st : SyncState,
      is_busy st = true ↔
        (st.status = SyncStatus.checking ∨ st.status = SyncStatus.downloading))
    ∧ ∀ (fs : FsState) (st : SyncState) (env : SyncEnv),
        is_busy st = true →
          sync_with_state_tracking fs st env = (fs, st, none, false) := by
  constructor
  · intro st
    simp [is_busy]
  · intro fs st env h
    unfold sync_with_state_tracking
    simp [h]

theorem claim_C8_witness :
    sync_with_state_tracking wFs wBusy wEnvOk = (wFs, wBusy, none, false) :=
  claim_C8.2 wFs wBusy wEnvOk (by decide)

/-- C4: for a bookmark whose content id yields a part token with a recorded
range `(mn, mx)`, the reconstructed progress is
`(VolumeIndex − mn + raw) / (mx − mn + 1)` clamped to `[0, 1]`, and the raw
section progress is kept unchanged when `mx − mn + 1 ≤ 0`. -/
theorem claim_C4 (ranges : List (String × (Int × Int))) (bm : Bookmark)
    (cid p : String) (mn mx : Int) (sp : ℚ) (vi : Int)
    (hcid : bm.ContentID = some cid) (hp : extract_part cid = some p)
    (hr : ranges.lookup p = some (mn, mx))
    (hsp : bm.ChapterProgress = some sp) (hvi : bm.VolumeIndex = some vi) :
    (0 < mx - mn + 1 →
      true_progress ranges bm =
        some (clamp01 ((((vi - mn : Int) : ℚ) + sp) / ((mx - mn + 1 : Int) : ℚ))))
    ∧ (mx - mn + 1 ≤ 0 → true_progress ranges bm = some sp) := by
  have hne : cid.isEmpty = false := by
    by_contra hc
    have hc' : cid.isEmpty = true := by revert hc; cases cid.isEmpty <;> simp
    rw [String.isEmpty_iff] at hc'
    subst hc'
    simp [extract_part, findPart] at hp
  rw [true_progress, hcid, hsp, hvi]
  simp only [hne, Bool.false_eq_true, if_false, hp, hr]
  constructor
  · intro h
    rw [if_neg (by omega)]
  · intro h
    rw [if_pos h]

theorem claim_C4_witness :
    true_progress wRanges wBm = some (1/2) := by
  have h := (claim_C4 wRanges wBm "part0007" "part0007" 10 12 (1/2) 11
      rfl (by decide) (by decide) rfl rfl).1 (by norm_num)
  rw [h]
  norm_num [clamp01, min_def, max_def]

/-- C5: a successful sync against a remote timestamp `T > 0` stamps the
replica's mtime to `T`, so an immediate staleness re-check against the same
`T` returns false — no re-sync loop, for either sync entry point. -/
theorem claim_C5 (fs : FsState) (st : SyncState) (env : SyncEnv)
    (h0 : 0 < env.remoteMtime) :
    ((sync_if_needed fs env).2.2 = true →
      is_local_cache_stale (get_local_file_mtime (sync_if_needed fs env).1)
        env.remoteMtime = false)
    ∧ ((sync_with_state_tracking fs st env).2.2.2 = true →
      is_local_cache_stale
        (get_local_file_mtime (sync_with_state_tracking fs st env).1)
        env.remoteMtime = false) := by
  have hmain : is_local_cache_stale env.remoteMtime env.remoteMtime = false := by
    rw [is_local_cache_stale, if_neg (by linarith), if_neg (by linarith)]
    simp only [decide_eq_false_iff_not]
    linarith
  constructor
  · unfold sync_if_needed
    repeat' split
    all_goals intro h
    all_goals simp_all [get_local_file_mtime]
  · unfold sync_with_state_tracking
    repeat' split
    all_goals intro h
    all_goals simp_all [get_local_file_mtime]

theorem claim_C5_witness :
    is_local_cache_stale (get_local_file_mtime (sync_if_needed wFs wEnvOk).1)
      wEnvOk.remoteMtime = false :=
  (claim_C5 wFs initial_sync_state wEnvOk (by norm_num [wEnvOk, wEnvFail])).1
    (by norm_num [sync_if_needed, wFs, wRep, wEnvOk, wEnvFail, get_local_file_mtime,
      is_local_cache_stale])

/-- C1: when a sync attempt over an existing replica returns false (in
particular when any stage after the staleness check fails), the replica is
byte-identical to its pre-attempt content and no temp file remains in the
target directory — for both sync entry points. -/
theorem claim_C1 (fs : FsState) (env : SyncEnv) (r : ReplicaFile) (st : SyncState)
    (hpre : fs.replica = some r) :
    ((sync_if_needed fs env).2.2 = false →
      (sync_if_needed fs env).1.replica = some r
        ∧ (sync_if_needed fs env).2.1 = none)
    ∧ ((sync_with_state_tracking fs st env).2.2.2 = false →
      (sync_with_state_tracking fs st env).1.replica = some r
        ∧ (sync_with_state_tracking fs st env).2.2.1 = none) := by
  constructor
  · unfold sync_if_needed
    repeat' split
    all_goals intro h
    all_goals simp_all
  · unfold sync_with_state_tracking
    repeat' split
    all_goals intro h
    all_goals simp_all

theorem claim_C1_witness :
    (sync_if_needed wFs wEnvFail).1.replica = some wRep
      ∧ (sync_if_needed wFs wEnvFail).2.1 = none :=
  (claim_C1 wFs wEnvFail wRep initial_sync_state rfl).1
    (by norm_num [sync_if_needed, wFs, wRep, wEnvFail, get_local_file_mtime,
      is_local_cache_stale])

/-- C6: a `sync_with_state_tracking` call that starts with the tracker not
busy always returns with a terminal status — Completed, UpToDate or Error,
never Checking or Downloading; an Error status always carries a recorded
message; and each failing stage records that exception's message: the
`get_file_info`, `makedirs` and `mkstemp` stages verbatim (outer handler),
the download, verification, `utime` and rename stages under the
`Download failed:` banner the inner handler prepends. -/
theorem claim_C6 (fs : FsState) (st : SyncState) (env : SyncEnv)
    (hb : is_busy st = false) :
    ((sync_with_state_tracking fs st env).2.1.status = SyncStatus.completed
      ∨ (sync_with_state_tracking fs st env).2.1.status = SyncStatus.upToDate
      ∨ (sync_with_state_tracking fs st env).2.1.status = SyncStatus.error)
    ∧ ((sync_with_state_tracking fs st env).2.1.status = SyncStatus.error →
        ∃ m, (sync_with_state_tracking fs st env).2.1.error = some m)
    ∧ (∀ e, env.statResult = Except.error e →
        is_local_cache_stale (get_local_file_mtime fs) env.remoteMtime = true →
        (sync_with_state_tracking fs st env).2.1.error = some e)
    ∧ (∀ e i, env.statResult = Except.ok i → env.mkdirResult = Except.error e →
        is_local_cache_stale (get_local_file_mtime fs) env.remoteMtime = true →
        (sync_with_state_tracking fs st env).2.1.error = some e)
    ∧ (∀ e i, env.statResult = Except.ok i → env.mkdirResult = Except.ok () →
        env.mkstempResult = Except.error e →
        is_local_cache_stale (get_local_file_mtime fs) env.remoteMtime = true →
        (sync_with_state_tracking fs st env).2.1.error = some e)
    ∧ (∀ e i, env.statResult = Except.ok i → env.mkdirResult = Except.ok () →
        env.mkstempResult = Except.ok () → env.downloadResult = Except.error e →
        is_local_cache_stale (get_local_file_mtime fs) env.remoteMtime = true →
        (sync_with_state_tracking fs st env).2.1.error =
          some ("Download failed: " ++ e))
    ∧ (∀ e i bs, env.statResult = Except.ok i → env.mkdirResult = Except.ok () →
        env.mkstempResult = Except.ok () → env.downloadResult = Except.ok bs →
        bs.isEmpty = false → 0 < env.remoteMtime →
        env.utimeResult = Except.error e →
        is_local_cache_stale (get_local_file_mtime fs) env.remoteMtime = true →
        (sync_with_state_tracking fs st env).2.1.error =
          some ("Download failed: " ++ e))
    ∧ (∀ e i bs, env.statResult = Except.ok i → env.mkdirResult = Except.ok () →
        env.mkstempResult = Except.ok () → env.downloadResult = Except.ok bs →
        bs.isEmpty = false →
        (0 < env.remoteMtime → env.utimeResult = Except.ok ()) →
        env.moveResult = Except.error e →
        is_local_cache_stale (get_local_file_mtime fs) env.remoteMtime = true →
        (sync_with_state_tracking fs st env).2.1.error =
          some ("Download failed: " ++ e)) := by
  unfold sync_with_state_tracking
  simp only [hb, Bool.false_eq_true, if_false]
  repeat' split
  all_goals
    simp_all [set_error, set_completed, set_up_to_date, set_downloading, set_checking]

theorem claim_C6_witness :
    (sync_with_state_tracking wFs initial_sync_state wEnvOk).2.1.status
        = SyncStatus.completed
      ∨ (sync_with_state_tracking wFs initial_sync_state wEnvOk).2.1.status
        = SyncStatus.upToDate
      ∨ (sync_with_state_tracking wFs initial_sync_state wEnvOk).2.1.status
        = SyncStatus.error :=
  (claim_C6 wFs initial_sync_state wEnvOk rfl).1

/-! ### Helper lemmas about the dedup subquery order -/

theorem beats_iff {a b : BookRow} :
    beats a b = true ↔
      (b.PercentRead < a.PercentRead
        ∨ (a.PercentRead = b.PercentRead ∧ b.DateCreated < a.DateCreated)) := by
  simp [beats]

theorem beats_false_iff {a b : BookRow} :
    beats a b = false ↔
      (a.PercentRead ≤ b.PercentRead
        ∧ (a.PercentRead = b.PercentRead → a.DateCreated ≤ b.DateCreated)) := by
  simp only [beats, decide_eq_false_iff_not, not_or, not_lt, not_and]

theorem beats_irrefl (a : BookRow) : beats a a = false := by
  rw [beats_false_iff]
  exact ⟨le_refl _, fun _ => le_refl _⟩

theorem beats_asymm {a b : BookRow} (h : beats a b = true) : beats b a = false := by
  rw [beats_iff] at h
  rw [beats_false_iff]
  rcases h with h | ⟨he, hd⟩
  · exact ⟨h.le, fun hh => by linarith [hh.le, hh.ge]⟩
  · exact ⟨he.ge, fun _ => hd.le⟩

theorem not_beats_trans {a b c : BookRow} (h1 : beats a b = false)
    (h2 : beats b c = false) : beats a c = false := by
  rw [beats_false_iff] at h1 h2 ⊢
  obtain ⟨hp1, hd1⟩ := h1
  obtain ⟨hp2, hd2⟩ := h2
  refine ⟨hp1.trans hp2, fun he => ?_⟩
  have e1 : a.PercentRead = b.PercentRead := le_antisymm hp1 (hp2.trans he.symm.le)
  have e2 : b.PercentRead = c.PercentRead := le_antisymm hp2 (he.symm.le.trans hp1)
  exact (hd1 e1).trans (hd2 e2)

theorem pick_winner_eq_none {l : List BookRow} : pick_winner l = none ↔ l = [] := by
  cases l with
  | nil => simp [pick_winner]
  | cons x xs =>
    cases hx : pick_winner xs with
    | none => simp [pick_winner, hx]
    | some v => by_cases hb : beats v x = true <;> simp [pick_winner, hx, hb]

theorem pick_winner_mem {l : List BookRow} {w : BookRow}
    (h : pick_winner l = some w) : w ∈ l := by
  induction l with
  | nil => simp [pick_winner] at h
  | cons x xs ih =>
    cases hx : pick_winner xs with
    | none =>
      simp only [pick_winner, hx] at h
      injection h with h
      subst h
      exact List.mem_cons_self _ _
    | some v =>
      simp only [pick_winner, hx] at h
      by_cases hb : beats v x = true
      · rw [if_pos hb] at h
        injection h with h
        subst h
        exact List.mem_cons_of_mem _ (ih hx)
      · rw [if_neg hb] at h
        injection h with h
        subst h
        exact List.mem_cons_self _ _

theorem pick_winner_max {l : List BookRow} :
    ∀ {w : BookRow}, pick_winner l = some w → ∀ y ∈ l, beats y w = false := by
  induction l with
  | nil => intro w h; simp [pick_winner] at h
  | cons x xs ih =>
    intro w h y hy
    cases hx : pick_winner xs with
    | none =>
      simp only [pick_winner, hx] at h
      injection h with h
      subst h
      have hxs : xs = [] := pick_winner_eq_none.mp hx
      subst hxs
      rcases List.mem_singleton.mp hy with rfl
      exact beats_irrefl _
    | some v =>
      simp only [pick_winner, hx] at h
      by_cases hb : beats v x = true
      · rw [if_pos hb] at h
        injection h with h
        subst h
        rcases List.mem_cons.mp hy with rfl | hmem
        · exact beats_asymm hb
        · exact ih hx y hmem
      · rw [if_neg hb] at h
        injection h with h
        subst h
        rcases List.mem_cons.mp hy with rfl | hmem
        · exact beats_irrefl _
        · have hvx : beats v x = false := by
            revert hb
            cases beats v x with
            | false => intro _; rfl
            | true => intro hb; exact absurd rfl hb
          exact not_beats_trans (ih hx y hmem) hvx

/-! ### Helper lemmas about grouping and winner selection -/

theorem same_group_iff {a b : BookRow} :
    same_group a b = true ↔ (a.Title = b.Title ∧ a.Attribution = b.Attribution) := by
  rcases ha : a.Attribution with _ | x <;> rcases hb : b.Attribution with _ | y <;>
    simp [same_group, ha, hb]

theorem same_group_refl (r : BookRow) : same_group r r = true :=
  same_group_iff.mpr ⟨rfl, rfl⟩

theorem same_group_symm {a b : BookRow} (h : same_group a b = true) :
    same_group b a = true := by
  obtain ⟨ht, ha⟩ := same_group_iff.mp h
  exact same_group_iff.mpr ⟨ht.symm, ha.symm⟩

theorem same_group_trans {a b c : BookRow} (h1 : same_group a b = true)
    (h2 : same_group b c = true) : same_group a c = true := by
  obtain ⟨ht1, ha1⟩ := same_group_iff.mp h1
  obtain ⟨ht2, ha2⟩ := same_group_iff.mp h2
  exact same_group_iff.mpr ⟨ht1.trans ht2, ha1.trans ha2⟩

theorem same_group_congr {a b x : BookRow} (h : same_group a b = true) :
    same_group a x = same_group b x := by
  cases hbx : same_group b x with
  | true => exact same_group_trans h hbx
  | false =>
    by_contra hax
    have hax' : same_group a x = true := by
      revert hax; cases same_group a x <;> simp
    have hbx' : same_group b x = true :=
      same_group_trans (same_group_symm h) hax'
    rw [hbx] at hbx'
    cases hbx'

theorem group_rows_congr {cs : List BookRow} {a b : BookRow}
    (h : same_group a b = true) : group_rows cs a = group_rows cs b := by
  unfold group_rows
  exact List.filter_congr (fun x _ => same_group_congr h)

theorem mem_dedup_winners {table : List BookRow} {r : BookRow} :
    r ∈ dedup_winners table ↔
      r ∈ candidate_rows table
        ∧ pick_winner (group_rows (candidate_rows table) r) = some r := by
  unfold dedup_winners
  simp [List.mem_filter]

theorem get_books_no_filters (table : List BookRow) :
    get_books none none none none table =
      List.insertionSort listing_le (dedup_winners table) := rfl

/-- Exactly one winner row per present (Title, Attribution) group, given
distinct `ContentID`s among the candidate rows. -/
theorem winners_group_unique {table : List BookRow}
    (hid : ((candidate_rows table).map (fun r => r.ContentID)).Nodup)
    {g : BookRow} (hg : g ∈ candidate_rows table) :
    ((dedup_winners table).filter (fun r => same_group g r)).length = 1 := by
  have hnd : (candidate_rows table).Nodup := List.Nodup.of_map _ hid
  have hgg : g ∈ group_rows (candidate_rows table) g :=
    List.mem_filter.mpr ⟨hg, same_group_refl g⟩
  obtain ⟨w, hw⟩ : ∃ w, pick_winner (group_rows (candidate_rows table) g) = some w := by
    cases hpw : pick_winner (group_rows (candidate_rows table) g) with
    | none =>
      rw [pick_winner_eq_none.mp hpw] at hgg
      cases hgg
    | some w => exact ⟨w, rfl⟩
  have hwmem : w ∈ group_rows (candidate_rows table) g := pick_winner_mem hw
  have hwg : same_group g w = true := (List.mem_filter.mp hwmem).2
  have hwcs : w ∈ candidate_rows table := (List.mem_filter.mp hwmem).1
  have key : ∀ r ∈ candidate_rows table,
      ((fun r => same_group g r) r
          && (fun r => pick_winner (group_rows (candidate_rows table) r) == some r) r)
        = (r == w) := by
    intro r hr
    show (same_group g r
        && (pick_winner (group_rows (candidate_rows table) r) == some r)) = (r == w)
    by_cases hsg : same_group g r = true
    · have hgr : group_rows (candidate_rows table) r
          = group_rows (candidate_rows table) g :=
        group_rows_congr (same_group_symm hsg)
      rw [hgr, hw, hsg]
      by_cases hrw : r = w
      · subst hrw; simp
      · simp [hrw, Ne.symm hrw]
    · have hsg' : same_group g r = false := by
        revert hsg; cases same_group g r <;> simp
      rw [hsg']
      have hrw : r ≠ w := by
        intro h
        subst h
        rw [hwg] at hsg'
        cases hsg'
      simp [hrw]
  calc ((dedup_winners table).filter (fun r => same_group g r)).length
      = ((candidate_rows table).filter (fun r =>
          same_group g r
            && (pick_winner (group_rows (candidate_rows table) r) == some r))).length := by
        rw [dedup_winners, List.filter_filter]
    _ = ((candidate_rows table).filter (fun r => r == w)).length := by
        rw [List.filter_congr key]
    _ = (candidate_rows table).count w := by
        rw [List.count_eq_countP, List.countP_eq_length_filter]
    _ = 1 := List.count_eq_one_of_mem hnd hwcs

theorem bucket_eq_zero_iff {r : BookRow} : bucket r = 0 ↔ 0 < r.PercentRead := by
  unfold bucket
  split <;> simp_all

theorem listing_le_imp {a b : BookRow} (h : listing_le a b) :
    (0 < b.PercentRead → 0 < a.PercentRead)
    ∧ (bucket a = bucket b → b.PercentRead ≤ a.PercentRead)
    ∧ (bucket a = bucket b → a.PercentRead = b.PercentRead →
        lexLe (lower_title a) (lower_title b) = true) := by
  unfold listing_le at h
  refine ⟨?_, ?_, ?_⟩
  · intro hb
    have hbb : bucket b = 0 := bucket_eq_zero_iff.mpr hb
    rcases h with h | ⟨he, _⟩
    · omega
    · exact bucket_eq_zero_iff.mp (he.trans hbb)
  · intro he
    rcases h with h | ⟨_, h2⟩
    · omega
    · rcases h2 with h2 | ⟨h2, _⟩
      · exact h2.le
      · exact h2.ge
  · intro he hpe
    rcases h with h | ⟨_, h2⟩
    · omega
    · rcases h2 with h2 | ⟨_, h3⟩
      · rw [hpe] at h2
        exact absurd h2 (lt_irrefl _)
      · exact h3

/-- C3: with distinct ContentIDs among the candidate rows, `get_books`
(no filters, no paging) returns only candidate rows, each maximal in its
(Title, Attribution) group under (progress, then creation date); exactly one
row per present group; and the listing is ordered with positive-progress
rows first, by descending progress and then ascending lowercased title. -/
theorem claim_C3 (table : List BookRow)
    (hid : ((candidate_rows table).map (fun r => r.ContentID)).Nodup) :
    (∀ r ∈ get_books none none none none table,
      r ∈ candidate_rows table
        ∧ ∀ q ∈ candidate_rows table, same_group r q = true →
            q.PercentRead ≤ r.PercentRead
              ∧ (q.PercentRead = r.PercentRead → q.DateCreated ≤ r.DateCreated))
    ∧ (∀ g ∈ candidate_rows table,
        ((get_books none none none none table).filter
          (fun r => same_group g r)).length = 1)
    ∧ (get_books none none none none table).Pairwise (fun a b =>
        (0 < b.PercentRead → 0 < a.PercentRead)
        ∧ (bucket a = bucket b → b.PercentRead ≤ a.PercentRead)
        ∧ (bucket a = bucket b → a.PercentRead = b.PercentRead →
            lexLe (lower_title a) (lower_title b) = true)) := by
  have hperm : (get_books none none none none table).Perm (dedup_winners table) := by
    rw [get_books_no_filters]
    exact List.perm_insertionSort _ _
  refine ⟨?_, ?_, ?_⟩
  · intro r hr
    have hrw : r ∈ dedup_winners table := hperm.mem_iff.mp hr
    obtain ⟨hc, hpk⟩ := mem_dedup_winners.mp hrw
    refine ⟨hc, fun q hq hsg => ?_⟩
    have hqg : q ∈ group_rows (candidate_rows table) r :=
      List.mem_filter.mpr ⟨hq, hsg⟩
    exact beats_false_iff.mp (pick_winner_max hpk q hqg)
  · intro g hg
    rw [List.Perm.length_eq (hperm.filter _)]
    exact winners_group_unique hid hg
  · rw [get_books_no_filters]
    exact List.Pairwise.imp (fun h => listing_le_imp h)
      (List.sorted_insertionSort listing_le (dedup_winners table))

theorem claim_C3_witness :
    ((get_books none none none none wBooks).filter
      (fun r => same_group rowC r)).length = 1 :=
  (claim_C3 wBooks (by decide)).2.1 rowC (by decide)

/-- C7 fails as stated: `COUNT(DISTINCT Title || COALESCE(Attribution, ''))`
conflates the distinct groups ("AB", "C") and ("A", "BC"), so the total is 1
while the deduplicated listing has 2 rows. -/
theorem claim_C7_counterexample :
    ¬ get_total_books none none wCollide =
        (get_books none none none none wCollide).length := by decide

/-- C7 (amended): `get_total_books` counts distinct concatenation keys, so
it equals the unpaged `get_books` length exactly when those keys are
pairwise distinct across the returned rows; the page count is
`ceil(total / page_size)` with a minimum of 1, unconditionally. -/
theorem claim_C7_amended (search ctype : Option String) (table : List BookRow)
    (hkeys : (filtered_rows search ctype table).Pairwise
      (fun a b => concat_key a ≠ concat_key b)) :
    get_total_books search ctype table
        = (get_books none none search ctype table).length
    ∧ ∀ total p : Nat, 0 < p →
        1 ≤ total_pages total p
          ∧ total ≤ p * total_pages total p
          ∧ (0 < total → p * (total_pages total p - 1) < total) := by
  constructor
  · have hnd : ((filtered_rows search ctype table).map concat_key).Nodup :=
      List.pairwise_map.mpr hkeys
    have hperm : (get_books none none search ctype table).Perm
        (filtered_rows search ctype table) := List.perm_insertionSort _ _
    rw [get_total_books, List.dedup_eq_self.mpr hnd, List.length_map]
    exact hperm.length_eq.symm
  · intro total p hp
    unfold total_pages
    by_cases ht : 0 < total
    · rw [if_pos ht]
      have heq : total + p - 1 = (total - 1) + p := by omega
      rw [heq, Nat.add_div_right _ hp]
      refine ⟨Nat.le_add_left 1 _, ?_, ?_⟩
      · have hlt : (total - 1) / p < (total - 1) / p + 1 := Nat.lt_succ_self _
        have h2 : total - 1 < ((total - 1) / p + 1) * p :=
          (Nat.div_lt_iff_lt_mul hp).mp hlt
        calc total = total - 1 + 1 := by omega
          _ ≤ ((total - 1) / p + 1) * p := Nat.succ_le_of_lt h2
          _ = p * ((total - 1) / p + 1) := Nat.mul_comm _ _
      · intro _
        have h3 : (total - 1) / p * p ≤ total - 1 := Nat.div_mul_le_self _ _
        have h4 : total - 1 < total := by omega
        calc p * ((total - 1) / p + 1 - 1) = p * ((total - 1) / p) := by
              rw [Nat.add_sub_cancel]
          _ = (total - 1) / p * p := Nat.mul_comm _ _
          _ ≤ total - 1 := h3
          _ < total := h4
    · rw [if_neg ht]
      have h0 : total = 0 := by omega
      refine ⟨le_refl 1, by omega, fun hc => absurd hc ht⟩

theorem claim_C7_witness :
    get_total_books none none wBooks
      = (get_books none none none none wBooks).length :=
  (claim_C7_amended none none wBooks (by decide)).1

end KoboLib

